import Mathlib

set_option maxHeartbeats 1000000

open scoped Classical

noncomputable section

namespace RT

/-- Three-component vector of the renderer (struct Vector3, RayTracing.cpp). Machine
floats are idealised as real numbers; the guard constants (1e-8, 1e-5) are kept exactly. -/
structure Vector3 where
  x : ℝ
  y : ℝ
  z : ℝ

/-- operator+ : componentwise sum. -/
def Vector3.add (a b : Vector3) : Vector3 :=
  ⟨a.x + b.x, a.y + b.y, a.z + b.z⟩

instance : Add Vector3 := ⟨Vector3.add⟩

/-- operator- (binary) : componentwise difference. -/
def Vector3.sub (a b : Vector3) : Vector3 :=
  ⟨a.x - b.x, a.y - b.y, a.z - b.z⟩

instance : Sub Vector3 := ⟨Vector3.sub⟩

/-- operator* (scalar) : componentwise scaling. -/
def Vector3.scale (v : Vector3) (s : ℝ) : Vector3 :=
  ⟨v.x * s, v.y * s, v.z * s⟩

/-- operator/ (scalar) : returns the vector unchanged when the absolute value of the
scalar is below 1e-8, the componentwise quotient otherwise. -/
def Vector3.div (v : Vector3) (s : ℝ) : Vector3 :=
  if |s| < 1e-8 then v else ⟨v.x / s, v.y / s, v.z / s⟩

/-- operator- (unary) : componentwise negation. -/
def Vector3.neg (v : Vector3) : Vector3 :=
  ⟨-v.x, -v.y, -v.z⟩

instance : Neg Vector3 := ⟨Vector3.neg⟩

/-- dot product. -/
def dot (a b : Vector3) : ℝ :=
  a.x * b.x + a.y * b.y + a.z * b.z

/-- Euclidean length, sqrt of the self dot product. -/
def length (v : Vector3) : ℝ :=
  Real.sqrt (dot v v)

/-- normalize : divide by the length when the length exceeds 1e-8, identity otherwise. -/
def normalize (v : Vector3) : Vector3 :=
  if length v > 1e-8 then Vector3.div v (length v) else v

/-- cross product. -/
def cross (a b : Vector3) : Vector3 :=
  ⟨a.y * b.z - a.z * b.y, a.z * b.x - a.x * b.z, a.x * b.y - a.y * b.x⟩

/-- reflect : incident minus normal times twice the dot of incident with normal. -/
def reflect (incident normal : Vector3) : Vector3 :=
  incident - normal.scale (2 * dot incident normal)

/-- A ray: origin and direction. -/
structure Ray where
  origin : Vector3
  direction : Vector3

/-- pointAt : origin plus direction scaled by the parameter. -/
def Ray.pointAt (r : Ray) (t : ℝ) : Vector3 :=
  r.origin + r.direction.scale t

/-- A triangle: three vertices, a flat color, a sidedness flag. -/
structure Triangle where
  v0 : Vector3
  v1 : Vector3
  v2 : Vector3
  color : Vector3
  doubleSided : Bool

/-- Result record of an intersection query. The C++ triangle pointer (null when no
triangle was recorded) is modelled as an Option. -/
structure HitRecord where
  position : Vector3
  normal : Vector3
  distance : ℝ
  triangle : Option Triangle

/-- EPSILON = 1e-5f. -/
def EPSILON : ℝ := 1e-5

/-- FLT_MAX, the largest finite single-precision float, as an exact integer. -/
def FLT_MAX : ℝ := 340282346638528859811704183484516925440

/-- The HitRecord default constructor: distance FLT_MAX, no triangle, zero vectors. -/
def HitRecord.init : HitRecord :=
  ⟨⟨0, 0, 0⟩, ⟨0, 0, 0⟩, FLT_MAX, none⟩

/-- intersectTriangle (RayTracing.cpp lines 94-133). The C++ function takes the hit
record by reference and returns a bool; this is modelled by returning the pair of the
bool and the (possibly updated) record. -/
def intersectTriangle (tri : Triangle) (ray : Ray) (hit : HitRecord) : Bool × HitRecord :=
  let edge1 := tri.v1 - tri.v0
  let edge2 := tri.v2 - tri.v0
  let h := cross ray.direction edge2
  let a := dot edge1 h
  if tri.doubleSided = false ∧ a < EPSILON ∧ a > -EPSILON then (false, hit)
  else
    let f := 1 / a
    let s := ray.origin - tri.v0
    let u := f * dot s h
    if u < 0 ∨ u > 1 then (false, hit)
    else
      let q := cross s edge1
      let v := f * dot ray.direction q
      if v < 0 ∨ u + v > 1 then (false, hit)
      else
        let t := f * dot edge2 q
        if t > EPSILON ∧ t < hit.distance then
          let n0 := normalize (cross edge1 edge2)
          let n := if tri.doubleSided = true ∧ dot n0 ray.direction > 0 then -n0 else n0
          (true, ⟨ray.pointAt t, n, t, some tri⟩)
        else (false, hit)

/-- The Möller-Trumbore determinant a = dot(edge1, cross(direction, edge2)) as computed
at line 98 of the source. -/
def detA (tri : Triangle) (ray : Ray) : ℝ :=
  dot (tri.v1 - tri.v0) (cross ray.direction (tri.v2 - tri.v0))

/-- The candidate hit distance t = f * dot(edge2, q) as computed at line 117. -/
def tValue (tri : Triangle) (ray : Ray) : ℝ :=
  1 / detA tri ray * dot (tri.v2 - tri.v0) (cross (ray.origin - tri.v0) (tri.v1 - tri.v0))

/-- The normal stored on acceptance (lines 122-126): the normalized geometric normal,
negated when the triangle is double-sided and the normal points with the ray direction. -/
def flippedNormal (tri : Triangle) (ray : Ray) : Vector3 :=
  let n0 := normalize (cross (tri.v1 - tri.v0) (tri.v2 - tri.v0))
  if tri.doubleSided = true ∧ dot n0 ray.direction > 0 then -n0 else n0

/-- One iteration of the nearest-hit loop of trace (lines 139-146): the triangle is
tested against a freshly default-constructed record, and the accepted hit replaces the
accumulator when its distance is smaller. -/
def scanStep (ray : Ray) (closestHit : HitRecord) (tri : Triangle) : HitRecord :=
  let res := intersectTriangle tri ray HitRecord.init
  if res.1 = true ∧ res.2.distance < closestHit.distance then res.2 else closestHit

/-- The nearest-hit linear scan of trace (lines 138-146). -/
def scanClosest (ray : Ray) (triangles : List Triangle) : HitRecord :=
  triangles.foldl (scanStep ray) HitRecord.init

/-- The shadow test of trace (lines 171-185): some triangle intersects the ray from
hitPosition + normal*EPSILON toward the light at (2,5,1) at a distance strictly between
0 and the distance to the light. -/
def inShadowProp (triangles : List Triangle) (closestHit : HitRecord) : Prop :=
  let lightPos : Vector3 := ⟨2, 5, 1⟩
  let lightDir := normalize (lightPos - closestHit.position)
  let shadowRay : Ray := ⟨closestHit.position + closestHit.normal.scale EPSILON, lightDir⟩
  ∃ tri ∈ triangles,
    (intersectTriangle tri shadowRay HitRecord.init).1 = true ∧
    (intersectTriangle tri shadowRay HitRecord.init).2.distance > 0 ∧
    (intersectTriangle tri shadowRay HitRecord.init).2.distance <
      length (lightPos - closestHit.position)

/-- The shading part of trace (lines 151-202), with the recursive reflection call
abstracted into the parameter recurse. -/
def shadeWith (recurse : Ray → Vector3) (ray : Ray) (triangles : List Triangle)
    (closestHit : HitRecord) (tri : Triangle) (depth : ℕ) : Vector3 :=
  let materialColor := tri.color
  let ambientStrength : ℝ := 0.3
  let ambient := materialColor.scale ambientStrength
  let lightPos : Vector3 := ⟨2, 5, 1⟩
  let lightDir := normalize (lightPos - closestHit.position)
  let viewDir := normalize (ray.origin - closestHit.position)
  let reflectDir := reflect (-lightDir) closestHit.normal
  let diff := max 0 (dot closestHit.normal lightDir)
  let diffuse := materialColor.scale diff
  let specularStrength : ℝ := 0.5
  let spec := max 0 (dot viewDir reflectDir) ^ (32 : ℕ)
  let specular := ((Vector3.mk 1 1 1).scale spec).scale specularStrength
  let reflection : Vector3 :=
    if depth < 3 ∧ materialColor.x > 0.7 then
      (recurse ⟨closestHit.position + closestHit.normal.scale EPSILON,
                reflect ray.direction closestHit.normal⟩).scale 0.5
    else ⟨0, 0, 0⟩
  let result := if inShadowProp triangles closestHit then ambient
    else ambient + diffuse + specular
  result + reflection

/-- trace (RayTracing.cpp lines 135-203): depth ceiling, nearest-hit scan, background
color on a miss, and shading with the recursive reflection call at depth + 1. -/
def trace (ray : Ray) (triangles : List Triangle) (depth : ℕ) : Vector3 :=
  if h : depth > 3 then ⟨0, 0, 0⟩
  else
    let closestHit := scanClosest ray triangles
    match closestHit.triangle with
    | none => ⟨0.2, 0.7, 0.8⟩
    | some tri =>
      shadeWith (fun r => trace r triangles (depth + 1)) ray triangles closestHit tri depth
termination_by 4 - depth
decreasing_by simp_wf; omega

/-- The reflection contribution added by trace (lines 187-194). -/
def reflectionContribution (ray : Ray) (triangles : List Triangle)
    (closestHit : HitRecord) (tri : Triangle) (depth : ℕ) : Vector3 :=
  if depth < 3 ∧ tri.color.x > 0.7 then
    (trace ⟨closestHit.position + closestHit.normal.scale EPSILON,
            reflect ray.direction closestHit.normal⟩ triangles (depth + 1)).scale 0.5
  else ⟨0, 0, 0⟩

/-- Concrete downward ray used in the scenario lemmas: origin (2,1,1), direction (0,-1,0). -/
def downRay : Ray := ⟨⟨2, 1, 1⟩, ⟨0, -1, 0⟩⟩

/-- Concrete single-sided triangle in the plane y = 0 spanning the hit point (2,0,1). -/
def floorTri : Triangle := ⟨⟨0, 0, 0⟩, ⟨0, 0, 4⟩, ⟨4, 0, 0⟩, ⟨0.5, 0.5, 0.5⟩, false⟩

/-- Copy of the floor triangle shifted down to y = -1 (the farther duplicate). -/
def farTri : Triangle := ⟨⟨0, -1, 0⟩, ⟨0, -1, 4⟩, ⟨4, -1, 0⟩, ⟨0.1, 0.2, 0.3⟩, false⟩

/-- Occluder triangle in the plane y = 2, between the floor hit point and the light. -/
def occTri : Triangle := ⟨⟨0, 2, 0⟩, ⟨0, 2, 4⟩, ⟨4, 2, 0⟩, ⟨0.9, 0.1, 0.1⟩, false⟩

/-- Single-sided triangle in the plane z = 0 with geometric normal (0,0,1). -/
def backTri : Triangle := ⟨⟨0, 0, 0⟩, ⟨1, 0, 0⟩, ⟨0, 1, 0⟩, ⟨0.5, 0.5, 0.5⟩, false⟩

/-- Ray approaching backTri from its back face: direction (0,0,1) along the normal. -/
def backRay : Ray := ⟨⟨0.25, 0.25, -1⟩, ⟨0, 0, 1⟩⟩

/-- Double-sided copy of backTri. -/
def dsTri : Triangle := ⟨⟨0, 0, 0⟩, ⟨1, 0, 0⟩, ⟨0, 1, 0⟩, ⟨0.5, 0.5, 0.5⟩, true⟩

/-- Ray parallel to the plane z = 0 of backTri and dsTri. -/
def parRay : Ray := ⟨⟨0, 0, 1⟩, ⟨1, 0, 0⟩⟩

/-- The shadow ray cast from the floor hit point (2,0,1) toward the light at (2,5,1). -/
def shadowRay1 : Ray := ⟨⟨2, 1e-5, 1⟩, ⟨0, 1, 0⟩⟩

lemma add_def (a b : Vector3) : a + b = ⟨a.x + b.x, a.y + b.y, a.z + b.z⟩ := rfl

lemma sub_def (a b : Vector3) : a - b = ⟨a.x - b.x, a.y - b.y, a.z - b.z⟩ := rfl

lemma neg_def (a : Vector3) : -a = ⟨-a.x, -a.y, -a.z⟩ := rfl

lemma sqrt_eval {a b : ℝ} (hb : 0 ≤ b) (h : b ^ 2 = a) : Real.sqrt a = b := by
  rw [← h, Real.sqrt_sq hb]

lemma normalize_0_16_0 : normalize ⟨0, 16, 0⟩ = ⟨0, 1, 0⟩ := by
  have h : Real.sqrt 256 = 16 := sqrt_eval (by norm_num) (by norm_num)
  norm_num [normalize, length, dot, Vector3.div, h]

lemma normalize_0_5_0 : normalize ⟨0, 5, 0⟩ = ⟨0, 1, 0⟩ := by
  have h : Real.sqrt 25 = 5 := sqrt_eval (by norm_num) (by norm_num)
  norm_num [normalize, length, dot, Vector3.div, h]

lemma normalize_0_0_1 : normalize ⟨0, 0, 1⟩ = ⟨0, 0, 1⟩ := by
  have h : Real.sqrt 1 = 1 := sqrt_eval (by norm_num) (by norm_num)
  norm_num [normalize, length, dot, Vector3.div, h]

lemma intersectTriangle_cases (tri : Triangle) (ray : Ray) (hit : HitRecord) :
    intersectTriangle tri ray hit = (false, hit) ∨
    (intersectTriangle tri ray hit =
        (true, ⟨ray.pointAt (tValue tri ray), flippedNormal tri ray, tValue tri ray,
          some tri⟩) ∧
      EPSILON < tValue tri ray ∧ tValue tri ray < hit.distance) := by
  simp only [intersectTriangle]
  split_ifs with h1 h2 h3 h4 h5
  · exact Or.inl rfl
  · exact Or.inl rfl
  · exact Or.inl rfl
  · refine Or.inr ⟨?_, ?_, h4.2⟩
    · simp only [tValue, detA, flippedNormal, Prod.mk.injEq, true_and]
      rw [if_pos h5]
    · simpa [tValue, detA] using h4.1
  · refine Or.inr ⟨?_, ?_, h4.2⟩
    · simp only [tValue, detA, flippedNormal, Prod.mk.injEq, true_and]
      rw [if_neg h5]
    · simpa [tValue, detA] using h4.1
  · exact Or.inl rfl

lemma intersect_of_false {tri : Triangle} {ray : Ray} {hit : HitRecord}
    (h : (intersectTriangle tri ray hit).1 = false) :
    intersectTriangle tri ray hit = (false, hit) := by
  rcases intersectTriangle_cases tri ray hit with hc | ⟨hc, _, _⟩
  · exact hc
  · rw [hc] at h; simp at h

lemma intersect_of_true {tri : Triangle} {ray : Ray} {hit : HitRecord}
    (h : (intersectTriangle tri ray hit).1 = true) :
    intersectTriangle tri ray hit =
        (true, ⟨ray.pointAt (tValue tri ray), flippedNormal tri ray, tValue tri ray,
          some tri⟩) ∧
      EPSILON < tValue tri ray ∧ tValue tri ray < hit.distance := by
  rcases intersectTriangle_cases tri ray hit with hc | hc
  · rw [hc] at h; simp at h
  · exact hc

lemma intersect_floor_down :
    intersectTriangle floorTri downRay HitRecord.init =
      (true, ⟨⟨2, 0, 1⟩, ⟨0, 1, 0⟩, 1, some floorTri⟩) := by
  norm_num [intersectTriangle, floorTri, downRay, HitRecord.init, EPSILON, FLT_MAX,
    dot, cross, sub_def, add_def, Vector3.scale, Ray.pointAt, normalize_0_16_0]

lemma intersect_far_down :
    intersectTriangle farTri downRay HitRecord.init =
      (true, ⟨⟨2, -1, 1⟩, ⟨0, 1, 0⟩, 2, some farTri⟩) := by
  norm_num [intersectTriangle, farTri, downRay, HitRecord.init, EPSILON, FLT_MAX,
    dot, cross, sub_def, add_def, Vector3.scale, Ray.pointAt, normalize_0_16_0]

lemma intersect_occ_down :
    intersectTriangle occTri downRay HitRecord.init = (false, HitRecord.init) := by
  norm_num [intersectTriangle, occTri, downRay, HitRecord.init, EPSILON, FLT_MAX,
    dot, cross, sub_def, add_def, Vector3.scale, Ray.pointAt, normalize_0_16_0]

lemma intersect_occ_shadow :
    intersectTriangle occTri shadowRay1 HitRecord.init =
      (true, ⟨⟨2, 2, 1⟩, ⟨0, 1, 0⟩, 2 - 1e-5, some occTri⟩) := by
  norm_num [intersectTriangle, occTri, shadowRay1, HitRecord.init, EPSILON, FLT_MAX,
    dot, cross, sub_def, add_def, Vector3.scale, Ray.pointAt, normalize_0_16_0]

lemma intersect_floor_shadow :
    intersectTriangle floorTri shadowRay1 HitRecord.init = (false, HitRecord.init) := by
  norm_num [intersectTriangle, floorTri, shadowRay1, HitRecord.init, EPSILON, FLT_MAX,
    dot, cross, sub_def, add_def, Vector3.scale, Ray.pointAt, normalize_0_16_0]

lemma intersect_back :
    intersectTriangle backTri backRay HitRecord.init =
      (true, ⟨⟨0.25, 0.25, 0⟩, ⟨0, 0, 1⟩, 1, some backTri⟩) := by
  norm_num [intersectTriangle, backTri, backRay, HitRecord.init, EPSILON, FLT_MAX,
    dot, cross, sub_def, add_def, Vector3.scale, Ray.pointAt, normalize_0_0_1]

lemma scanStep_le (ray : Ray) (acc : HitRecord) (tri : Triangle) :
    (scanStep ray acc tri).distance ≤ acc.distance := by
  simp only [scanStep]
  split_ifs with h
  · exact le_of_lt h.2
  · exact le_refl _

lemma scanStep_le_hit (ray : Ray) (acc : HitRecord) (tri : Triangle)
    (h : (intersectTriangle tri ray HitRecord.init).1 = true) :
    (scanStep ray acc tri).distance ≤ (intersectTriangle tri ray HitRecord.init).2.distance := by
  simp only [scanStep]
  split_ifs with hc
  · exact le_refl _
  · push_neg at hc
    exact hc h

lemma scanFold_min (ray : Ray) (triangles : List Triangle) :
    ∀ acc : HitRecord,
      (triangles.foldl (scanStep ray) acc).distance ≤ acc.distance ∧
      ∀ tri ∈ triangles, (intersectTriangle tri ray HitRecord.init).1 = true →
        (triangles.foldl (scanStep ray) acc).distance ≤
          (intersectTriangle tri ray HitRecord.init).2.distance := by
  induction triangles with
  | nil => exact fun acc => ⟨le_refl _, by simp⟩
  | cons t l ih =>
    intro acc
    refine ⟨le_trans (ih (scanStep ray acc t)).1 (scanStep_le ray acc t), ?_⟩
    intro tri htri hacc
    rcases List.mem_cons.mp htri with rfl | hmem
    · exact le_trans (ih (scanStep ray acc tri)).1 (scanStep_le_hit ray acc tri hacc)
    · exact (ih (scanStep ray acc t)).2 tri hmem hacc

lemma scanClosest_min (ray : Ray) (triangles : List Triangle) :
    ∀ tri ∈ triangles, (intersectTriangle tri ray HitRecord.init).1 = true →
      (scanClosest ray triangles).distance ≤
        (intersectTriangle tri ray HitRecord.init).2.distance :=
  (scanFold_min ray triangles HitRecord.init).2

lemma scanFold_all_miss (ray : Ray) (triangles : List Triangle)
    (h : ∀ tri ∈ triangles, (intersectTriangle tri ray HitRecord.init).1 = false) :
    ∀ acc : HitRecord, triangles.foldl (scanStep ray) acc = acc := by
  induction triangles with
  | nil => intro acc; rfl
  | cons t l ih =>
    intro acc
    have ht : (intersectTriangle t ray HitRecord.init).1 = false := h t (by simp)
    have hstep : scanStep ray acc t = acc := by
      simp only [scanStep]
      rw [if_neg]
      rintro ⟨h1, -⟩
      rw [ht] at h1
      exact Bool.false_ne_true h1
    rw [List.foldl_cons, hstep]
    exact ih (fun tri hm => h tri (List.mem_cons_of_mem t hm)) acc

lemma trace_eq (ray : Ray) (triangles : List Triangle) (depth : ℕ) (hd : depth ≤ 3) :
    trace ray triangles depth =
      match (scanClosest ray triangles).triangle with
      | none => ⟨0.2, 0.7, 0.8⟩
      | some tri =>
        shadeWith (fun r => trace r triangles (depth + 1)) ray triangles
          (scanClosest ray triangles) tri depth := by
  rw [trace]
  rw [dif_neg (by omega)]

lemma intersect_true_dist {tri : Triangle} {ray : Ray} {hit : HitRecord}
    (h : (intersectTriangle tri ray hit).1 = true) :
    (intersectTriangle tri ray hit).2.distance = tValue tri ray := by
  rw [(intersect_of_true h).1]

lemma intersect_true_triangle {tri : Triangle} {ray : Ray} {hit : HitRecord}
    (h : (intersectTriangle tri ray hit).1 = true) :
    (intersectTriangle tri ray hit).2.triangle = some tri := by
  rw [(intersect_of_true h).1]

lemma scanStep_take (ray : Ray) (acc : HitRecord) (tri : Triangle)
    (h1 : (intersectTriangle tri ray HitRecord.init).1 = true)
    (h2 : (intersectTriangle tri ray HitRecord.init).2.distance < acc.distance) :
    scanStep ray acc tri = (intersectTriangle tri ray HitRecord.init).2 := by
  simp only [scanStep]
  rw [if_pos ⟨h1, h2⟩]

lemma scanStep_keep (ray : Ray) (acc : HitRecord) (tri : Triangle)
    (h : ¬ (intersectTriangle tri ray HitRecord.init).2.distance < acc.distance) :
    scanStep ray acc tri = acc := by
  simp only [scanStep]
  rw [if_neg]
  rintro ⟨-, hc⟩
  exact h hc

lemma trace_eq_some (ray : Ray) (triangles : List Triangle) (depth : ℕ) (tri : Triangle)
    (hd : depth ≤ 3) (ht : (scanClosest ray triangles).triangle = some tri) :
    trace ray triangles depth =
      shadeWith (fun r => trace r triangles (depth + 1)) ray triangles
        (scanClosest ray triangles) tri depth := by
  rw [trace_eq ray triangles depth hd, ht]

lemma init_distance : HitRecord.init.distance = FLT_MAX := rfl

lemma length_0_5_0 : length ⟨0, 5, 0⟩ = 5 := by
  have h : Real.sqrt 25 = 5 := sqrt_eval (by norm_num) (by norm_num)
  norm_num [length, dot, h]

lemma intersect_ds_back :
    intersectTriangle dsTri backRay HitRecord.init =
      (true, ⟨⟨0.25, 0.25, 0⟩, ⟨0, 0, -1⟩, 1, some dsTri⟩) := by
  norm_num [intersectTriangle, dsTri, backRay, HitRecord.init, EPSILON, FLT_MAX,
    dot, cross, sub_def, add_def, neg_def, Vector3.scale, Ray.pointAt, normalize_0_0_1]

lemma scan_floor_occ :
    scanClosest downRay [floorTri, occTri] =
      (⟨⟨2, 0, 1⟩, ⟨0, 1, 0⟩, 1, some floorTri⟩ : HitRecord) := by
  unfold scanClosest
  rw [List.foldl_cons, List.foldl_cons, List.foldl_nil]
  have s1 : scanStep downRay HitRecord.init floorTri =
      (⟨⟨2, 0, 1⟩, ⟨0, 1, 0⟩, 1, some floorTri⟩ : HitRecord) := by
    simp only [scanStep, intersect_floor_down, init_distance]
    norm_num [FLT_MAX]
  have s2 : scanStep downRay (⟨⟨2, 0, 1⟩, ⟨0, 1, 0⟩, 1, some floorTri⟩ : HitRecord) occTri =
      (⟨⟨2, 0, 1⟩, ⟨0, 1, 0⟩, 1, some floorTri⟩ : HitRecord) := by
    simp only [scanStep, intersect_occ_down]
    norm_num
  rw [s1, s2]

lemma floor_hit_in_shadow :
    inShadowProp [floorTri, occTri] (⟨⟨2, 0, 1⟩, ⟨0, 1, 0⟩, 1, some floorTri⟩ : HitRecord) := by
  simp only [inShadowProp]
  refine ⟨occTri, by simp, ?_, ?_, ?_⟩ <;>
    norm_num [intersectTriangle, occTri, HitRecord.init, EPSILON, FLT_MAX, dot, cross,
      sub_def, add_def, Vector3.scale, Ray.pointAt, normalize_0_16_0, normalize_0_5_0,
      length_0_5_0]

lemma shadeWith_inShadow (recurse : Ray → Vector3) (ray : Ray)
    (triangles : List Triangle) (closestHit : HitRecord) (tri : Triangle) (depth : ℕ)
    (hsh : inShadowProp triangles closestHit) :
    shadeWith recurse ray triangles closestHit tri depth =
      tri.color.scale 0.3 +
        (if depth < 3 ∧ tri.color.x > 0.7 then
          (recurse ⟨closestHit.position + closestHit.normal.scale EPSILON,
                    reflect ray.direction closestHit.normal⟩).scale 0.5
         else ⟨0, 0, 0⟩) := by
  simp only [shadeWith]
  rw [if_pos hsh]

lemma scanFold_mem (ray : Ray) (triangles : List Triangle) :
    ∀ acc : HitRecord,
      triangles.foldl (scanStep ray) acc = acc ∨
      ∃ tri ∈ triangles, (intersectTriangle tri ray HitRecord.init).1 = true ∧
        triangles.foldl (scanStep ray) acc = (intersectTriangle tri ray HitRecord.init).2 := by
  induction triangles with
  | nil => exact fun acc => Or.inl rfl
  | cons t l ih =>
    intro acc
    rw [List.foldl_cons]
    by_cases hc : (intersectTriangle t ray HitRecord.init).1 = true ∧
        (intersectTriangle t ray HitRecord.init).2.distance < acc.distance
    · have hstep : scanStep ray acc t = (intersectTriangle t ray HitRecord.init).2 :=
        scanStep_take ray acc t hc.1 hc.2
      rw [hstep]
      rcases ih (intersectTriangle t ray HitRecord.init).2 with heq | ⟨tri, hm, hacc, heq⟩
      · exact Or.inr ⟨t, by simp, hc.1, heq⟩
      · exact Or.inr ⟨tri, List.mem_cons_of_mem t hm, hacc, heq⟩
    · have hstep : scanStep ray acc t = acc := by
        simp only [scanStep]
        rw [if_neg hc]
      rw [hstep]
      rcases ih acc with heq | ⟨tri, hm, hacc, heq⟩
      · exact Or.inl heq
      · exact Or.inr ⟨tri, List.mem_cons_of_mem t hm, hacc, heq⟩

/-- Claim C1: the closest hit kept by the linear scan in trace has the minimum distance
among all triangles whose intersection test accepts the ray (the test itself enforces
distance > EPSILON); consequently, for a scene of a nearer and a farther accepted
triangle, trace shades the nearer triangle's hit record, never the farther one's. -/
theorem trace_selects_nearest_hit (ray : Ray) (triangles : List Triangle)
    (t1 t2 : Triangle) (depth : ℕ) (hd : depth ≤ 3)
    (h1 : (intersectTriangle t1 ray HitRecord.init).1 = true)
    (h2 : (intersectTriangle t2 ray HitRecord.init).1 = true)
    (hlt : (intersectTriangle t1 ray HitRecord.init).2.distance <
           (intersectTriangle t2 ray HitRecord.init).2.distance) :
    (∀ tri ∈ triangles, (intersectTriangle tri ray HitRecord.init).1 = true →
      (scanClosest ray triangles).distance ≤
        (intersectTriangle tri ray HitRecord.init).2.distance) ∧
    (scanClosest ray triangles = HitRecord.init ∨
      ∃ tri ∈ triangles, (intersectTriangle tri ray HitRecord.init).1 = true ∧
        scanClosest ray triangles = (intersectTriangle tri ray HitRecord.init).2) ∧
    scanClosest ray [t1, t2] = (intersectTriangle t1 ray HitRecord.init).2 ∧
    trace ray [t1, t2] depth =
      shadeWith (fun r => trace r [t1, t2] (depth + 1)) ray [t1, t2]
        ((intersectTriangle t1 ray HitRecord.init).2) t1 depth := by
  have d1 := intersect_true_dist h1
  have hmax1 := (intersect_of_true h1).2.2
  have s1 : scanStep ray HitRecord.init t1 = (intersectTriangle t1 ray HitRecord.init).2 :=
    scanStep_take ray HitRecord.init t1 h1 (by rw [d1]; exact hmax1)
  have s2 : scanStep ray (intersectTriangle t1 ray HitRecord.init).2 t2 =
      (intersectTriangle t1 ray HitRecord.init).2 :=
    scanStep_keep ray _ t2 (lt_asymm hlt)
  have hscan : scanClosest ray [t1, t2] = (intersectTriangle t1 ray HitRecord.init).2 := by
    unfold scanClosest
    rw [List.foldl_cons, s1, List.foldl_cons, s2, List.foldl_nil]
  refine ⟨scanClosest_min ray triangles, scanFold_mem ray triangles HitRecord.init,
    hscan, ?_⟩
  rw [trace_eq_some ray [t1, t2] depth t1 hd (by rw [hscan, intersect_true_triangle h1]),
    hscan]

/-- Witness for C1: with the floor triangle at distance 1 and its farther copy at
distance 2, the scan retains the floor triangle's hit record. -/
theorem trace_selects_nearest_hit_witness :
    scanClosest downRay [floorTri, farTri] =
      (intersectTriangle floorTri downRay HitRecord.init).2 ∧
    trace downRay [floorTri, farTri] 0 =
      shadeWith (fun r => trace r [floorTri, farTri] (0 + 1)) downRay [floorTri, farTri]
        ((intersectTriangle floorTri downRay HitRecord.init).2) floorTri 0 := by
  have h := trace_selects_nearest_hit downRay [floorTri, farTri] floorTri farTri 0
    (by norm_num)
    (by rw [intersect_floor_down])
    (by rw [intersect_far_down])
    (by rw [intersect_floor_down, intersect_far_down]; norm_num)
  exact ⟨h.2.2.1, h.2.2.2⟩

/-- Claim C6: for every ray, triangle list and depth greater than 3, trace returns
exactly (0,0,0). -/
theorem trace_depth_ceiling (ray : Ray) (triangles : List Triangle) (depth : ℕ)
    (hd : depth > 3) : trace ray triangles depth = ⟨0, 0, 0⟩ := by
  rw [trace, dif_pos hd]

/-- Witness for C6 at depth 4 on the empty scene. -/
theorem trace_depth_ceiling_witness : trace downRay [] 4 = ⟨0, 0, 0⟩ :=
  trace_depth_ceiling downRay [] 4 (by norm_num)

/-- Claim C7: trace on the empty scene returns the background color (0.2,0.7,0.8), and
for every scene, a ray that no triangle's intersection test accepts returns exactly the
background color. -/
theorem trace_miss_background (ray : Ray) (depth : ℕ) (hd : depth ≤ 3) :
    trace ray [] depth = ⟨0.2, 0.7, 0.8⟩ ∧
    ∀ triangles : List Triangle,
      (∀ tri ∈ triangles, (intersectTriangle tri ray HitRecord.init).1 = false) →
      trace ray triangles depth = ⟨0.2, 0.7, 0.8⟩ := by
  have key : ∀ triangles : List Triangle,
      (∀ tri ∈ triangles, (intersectTriangle tri ray HitRecord.init).1 = false) →
      trace ray triangles depth = ⟨0.2, 0.7, 0.8⟩ := by
    intro triangles hmiss
    have hscan : scanClosest ray triangles = HitRecord.init :=
      scanFold_all_miss ray triangles hmiss HitRecord.init
    rw [trace_eq ray triangles depth hd, hscan]
    rfl
  exact ⟨key [] (by simp), key⟩

/-- Witness for C7 on the empty scene at depth 0. -/
theorem trace_miss_background_witness : trace downRay [] 0 = ⟨0.2, 0.7, 0.8⟩ :=
  (trace_miss_background downRay 0 (by norm_num)).1

/-- Claim C10: when intersectTriangle returns false the hit record is returned
unchanged; when it returns true, the candidate distance is strictly below the record's
incoming distance, and the updated record stores that candidate distance. -/
theorem intersect_frame (tri : Triangle) (ray : Ray) (hit : HitRecord) :
    ((intersectTriangle tri ray hit).1 = false → (intersectTriangle tri ray hit).2 = hit) ∧
    ((intersectTriangle tri ray hit).1 = true →
      tValue tri ray < hit.distance ∧
      (intersectTriangle tri ray hit).2.distance = tValue tri ray) := by
  constructor
  · intro h
    rw [intersect_of_false h]
  · intro h
    exact ⟨(intersect_of_true h).2.2, intersect_true_dist h⟩

/-- Witness for C10: a rejecting test leaves the record unchanged (occluder triangle,
primary ray) and an accepting test stores a distance below the incoming FLT_MAX. -/
theorem intersect_frame_witness :
    (intersectTriangle occTri downRay HitRecord.init).2 = HitRecord.init ∧
    tValue floorTri downRay < HitRecord.init.distance ∧
    (intersectTriangle floorTri downRay HitRecord.init).2.distance =
      tValue floorTri downRay := by
  refine ⟨(intersect_frame occTri downRay HitRecord.init).1 (by rw [intersect_occ_down]),
    (intersect_frame floorTri downRay HitRecord.init).2 (by rw [intersect_floor_down])⟩

/-- Claim C2 (code evaluated at the failing input): backTri is single-sided and backRay
approaches it from the back face (the ray direction has positive dot with the geometric
normal, equivalently the determinant a is below -EPSILON), yet intersectTriangle accepts
the hit: the guard at line 101 only rejects the band |a| < EPSILON, so it does not
perform the back-face culling that the spec and the source comment describe. -/
theorem backface_hit_accepted :
    backTri.doubleSided = false ∧
    dot backRay.direction (cross (backTri.v1 - backTri.v0) (backTri.v2 - backTri.v0)) > 0 ∧
    detA backTri backRay < -EPSILON ∧
    (intersectTriangle backTri backRay HitRecord.init).1 = true := by
  refine ⟨rfl, ?_, ?_, ?_⟩
  · norm_num [dot, cross, sub_def, backTri, backRay]
  · norm_num [detA, dot, cross, sub_def, backTri, backRay, EPSILON]
  · rw [intersect_back]

/-- Counterexample to C3 as stated: for the double-sided triangle dsTri and the
parallel ray parRay the determinant is 0 (inside the |a| < EPSILON band), yet the
culling condition of line 101 is false, so the code proceeds to execute f = 1/a with a
near-zero denominator. -/
theorem parallel_guard_counterexample :
    dsTri.doubleSided = true ∧
    |detA dsTri parRay| < EPSILON ∧
    ¬(dsTri.doubleSided = false ∧ detA dsTri parRay < EPSILON ∧
      detA dsTri parRay > -EPSILON) := by
  refine ⟨rfl, ?_, ?_⟩
  · norm_num [detA, dot, cross, sub_def, dsTri, parRay, EPSILON]
  · rintro ⟨hcon, -⟩
    simp [dsTri] at hcon

/-- Claim C3 (amended): the guard that skips the division f = 1/a applies only to
single-sided triangles — for them, |a| < EPSILON is rejected before the division; a ray
exactly parallel to the plane (a = 0) yields the graceful no-hit fallback for every
triangle, double-sided included, with an unchanged hit record. -/
theorem parallel_guard_single_sided (tri : Triangle) (ray : Ray) (hit : HitRecord) :
    (tri.doubleSided = false → |detA tri ray| < EPSILON →
      intersectTriangle tri ray hit = (false, hit)) ∧
    (detA tri ray = 0 → intersectTriangle tri ray hit = (false, hit)) := by
  constructor
  · intro hds habs
    rw [abs_lt] at habs
    simp only [detA] at habs
    simp only [intersectTriangle]
    rw [if_pos ⟨hds, habs.2, habs.1⟩]
  · intro hz
    simp only [detA] at hz
    simp only [intersectTriangle]
    rw [hz]
    split_ifs with hg h1 h2 h3 h4 <;> try rfl
    · exact absurd h3 (by norm_num [EPSILON])
    · exact absurd h3 (by norm_num [EPSILON])

/-- Witness for the amended C3: the single-sided backTri rejects the parallel ray via
the guard, and the double-sided dsTri also reports no hit on the same parallel ray. -/
theorem parallel_guard_single_sided_witness :
    intersectTriangle backTri parRay HitRecord.init = (false, HitRecord.init) ∧
    intersectTriangle dsTri parRay HitRecord.init = (false, HitRecord.init) := by
  constructor
  · exact (parallel_guard_single_sided backTri parRay HitRecord.init).1 rfl
      (by norm_num [detA, dot, cross, sub_def, backTri, parRay, EPSILON])
  · exact (parallel_guard_single_sided dsTri parRay HitRecord.init).2
      (by norm_num [detA, dot, cross, sub_def, dsTri, parRay])

/-- Claim C4: whenever the scan finds a hit and some triangle blocks the shadow ray at
a distance strictly between 0 and the distance to the light, the diffuse and specular
terms are excluded: trace returns the ambient term (material color times 0.3) plus only
the reflection contribution. -/
theorem trace_shadow_ambient_only (ray : Ray) (triangles : List Triangle) (tri : Triangle)
    (depth : ℕ) (hd : depth ≤ 3)
    (ht : (scanClosest ray triangles).triangle = some tri)
    (hsh : inShadowProp triangles (scanClosest ray triangles)) :
    trace ray triangles depth =
      tri.color.scale 0.3 +
        reflectionContribution ray triangles (scanClosest ray triangles) tri depth := by
  rw [trace_eq_some ray triangles depth tri hd ht,
    shadeWith_inShadow _ _ _ _ _ _ hsh]
  rfl

/-- Witness for C4: the occluder above the floor puts the floor hit point in shadow, so
trace on the two-triangle scene returns ambient plus reflection only. -/
theorem trace_shadow_ambient_only_witness :
    trace downRay [floorTri, occTri] 0 =
      floorTri.color.scale 0.3 +
        reflectionContribution downRay [floorTri, occTri]
          (scanClosest downRay [floorTri, occTri]) floorTri 0 := by
  exact trace_shadow_ambient_only downRay [floorTri, occTri] floorTri 0 (by norm_num)
    (by rw [scan_floor_occ])
    (by rw [scan_floor_occ]; exact floor_hit_in_shadow)

/-- Claim C5: for a double-sided triangle, every accepted hit's normal has nonpositive
dot with the ray direction, and equals the normalized geometric normal
normalize(cross(v1-v0, v2-v0)), negated exactly when that normal points with the
incoming ray direction. -/
theorem double_sided_normal (tri : Triangle) (ray : Ray) (hit : HitRecord)
    (hds : tri.doubleSided = true)
    (hacc : (intersectTriangle tri ray hit).1 = true) :
    dot (intersectTriangle tri ray hit).2.normal ray.direction ≤ 0 ∧
    (intersectTriangle tri ray hit).2.normal =
      (if dot (normalize (cross (tri.v1 - tri.v0) (tri.v2 - tri.v0))) ray.direction > 0
       then -(normalize (cross (tri.v1 - tri.v0) (tri.v2 - tri.v0)))
       else normalize (cross (tri.v1 - tri.v0) (tri.v2 - tri.v0))) := by
  have hnorm : (intersectTriangle tri ray hit).2.normal = flippedNormal tri ray := by
    rw [(intersect_of_true hacc).1]
  constructor
  · rw [hnorm]
    simp only [flippedNormal]
    split_ifs with hflip
    · have hpos := hflip.2
      simp only [dot, neg_def] at hpos ⊢
      linarith
    · push_neg at hflip
      exact hflip hds
  · rw [hnorm]
    simp only [flippedNormal, hds, true_and]

/-- Witness for C5: the double-sided triangle dsTri hit from its back face returns the
flipped normal (0,0,-1), whose dot with the ray direction (0,0,1) is -1 which is
nonpositive. -/
theorem double_sided_normal_witness :
    dot (intersectTriangle dsTri backRay HitRecord.init).2.normal backRay.direction ≤ 0 ∧
    (intersectTriangle dsTri backRay HitRecord.init).2.normal =
      (if dot (normalize (cross (dsTri.v1 - dsTri.v0) (dsTri.v2 - dsTri.v0)))
            backRay.direction > 0
       then -(normalize (cross (dsTri.v1 - dsTri.v0) (dsTri.v2 - dsTri.v0)))
       else normalize (cross (dsTri.v1 - dsTri.v0) (dsTri.v2 - dsTri.v0))) :=
  double_sided_normal dsTri backRay HitRecord.init rfl (by rw [intersect_ds_back])

/-- Counterexample to C8 as stated: the vector (1e-8, 0, 0) has length exactly 1e-8,
so the claim's "length(v) < 1e-8" guard does not apply and the claim demands
v / length(v), a vector of length 1 — but normalize (whose guard is length > 1e-8)
returns the vector unchanged, which differs from the quotient and has length 1e-8. -/
theorem normalize_boundary_counterexample :
    ¬ length (⟨1e-8, 0, 0⟩ : Vector3) < 1e-8 ∧
    normalize ⟨1e-8, 0, 0⟩ = ⟨1e-8, 0, 0⟩ ∧
    normalize ⟨1e-8, 0, 0⟩ ≠ Vector3.div ⟨1e-8, 0, 0⟩ (length ⟨1e-8, 0, 0⟩) ∧
    length (normalize ⟨1e-8, 0, 0⟩) ≠ 1 := by
  have hlen : length (⟨1e-8, 0, 0⟩ : Vector3) = 1e-8 := by
    unfold length
    rw [show dot ⟨1e-8, 0, 0⟩ ⟨1e-8, 0, 0⟩ = ((1e-8 : ℝ)) ^ 2 by norm_num [dot]]
    exact Real.sqrt_sq (by norm_num)
  have hnrm : normalize (⟨1e-8, 0, 0⟩ : Vector3) = ⟨1e-8, 0, 0⟩ := by
    unfold normalize
    rw [hlen, if_neg (by norm_num)]
  refine ⟨by rw [hlen]; norm_num, hnrm, ?_, ?_⟩
  · rw [hnrm, hlen]
    unfold Vector3.div
    rw [if_neg (by rw [abs_of_pos (by norm_num : (0:ℝ) < 1e-8)]; norm_num)]
    intro hcon
    rw [Vector3.mk.injEq] at hcon
    norm_num at hcon
  · rw [hnrm, hlen]
    norm_num

/-- Claim C8 (amended): division by a scalar returns the vector unchanged when the
scalar's absolute value is below 1e-8 and the componentwise quotient otherwise;
normalize returns the vector unchanged when its length is at most 1e-8, and otherwise
returns v divided by length(v), a vector of length 1. -/
theorem div_normalize_spec (v : Vector3) (s : ℝ) :
    (|s| < 1e-8 → Vector3.div v s = v) ∧
    (¬ |s| < 1e-8 → Vector3.div v s = ⟨v.x / s, v.y / s, v.z / s⟩) ∧
    (length v ≤ 1e-8 → normalize v = v) ∧
    (length v > 1e-8 → normalize v = Vector3.div v (length v) ∧
      length (normalize v) = 1) := by
  refine ⟨fun h => by unfold Vector3.div; rw [if_pos h],
          fun h => by unfold Vector3.div; rw [if_neg h],
          fun h => by unfold normalize; rw [if_neg (not_lt.mpr h)],
          fun h => ?_⟩
  have hv : normalize v = Vector3.div v (length v) := by
    unfold normalize
    rw [if_pos h]
  refine ⟨hv, ?_⟩
  have hpos : (0 : ℝ) < length v := lt_trans (by norm_num) h
  have h0 : (0 : ℝ) ≤ dot v v := by
    unfold dot
    nlinarith [mul_self_nonneg v.x, mul_self_nonneg v.y, mul_self_nonneg v.z]
  have hL2 : length v * length v = dot v v := Real.mul_self_sqrt h0
  have hdotpos : (0 : ℝ) < dot v v := by rw [← hL2]; exact mul_pos hpos hpos
  have hLne : length v ≠ 0 := ne_of_gt hpos
  have habs : ¬ |length v| < 1e-8 := by
    rw [abs_of_pos hpos]
    exact not_lt.mpr (le_of_lt h)
  rw [hv]
  unfold Vector3.div
  rw [if_neg habs]
  have hd : dot ⟨v.x / length v, v.y / length v, v.z / length v⟩
      ⟨v.x / length v, v.y / length v, v.z / length v⟩ = 1 := by
    have expand : dot ⟨v.x / length v, v.y / length v, v.z / length v⟩
        ⟨v.x / length v, v.y / length v, v.z / length v⟩ =
        dot v v / (length v * length v) := by
      simp only [dot]
      field_simp
    rw [expand, hL2, div_self (ne_of_gt hdotpos)]
  have key : ∀ w : Vector3, dot w w = 1 → length w = 1 := by
    intro w hw
    unfold length
    rw [hw]
    exact Real.sqrt_one
  exact key _ hd

/-- Witness for C8: the quotient branch at scalar 2, and normalize of (0,5,0), whose
length 5 exceeds the guard, yielding the unit vector property. -/
theorem div_normalize_spec_witness :
    Vector3.div ⟨2, 4, 6⟩ 2 = ⟨2 / 2, 4 / 2, 6 / 2⟩ ∧
    normalize ⟨0, 5, 0⟩ = Vector3.div ⟨0, 5, 0⟩ (length ⟨0, 5, 0⟩) ∧
    length (normalize ⟨0, 5, 0⟩) = 1 := by
  refine ⟨(div_normalize_spec ⟨2, 4, 6⟩ 2).2.1 (by norm_num),
    (div_normalize_spec ⟨0, 5, 0⟩ 0).2.2.2 (by rw [length_0_5_0]; norm_num)⟩

/-- Claim C9: for every incident vector and every normal of length 1, the dot of the
reflected vector with the normal equals the negation of the dot of the incident vector
with the normal. -/
theorem reflect_dot (i n : Vector3) (hn : length n = 1) :
    dot (reflect i n) n = -(dot i n) := by
  have h0 : (0 : ℝ) ≤ dot n n := by
    unfold dot
    nlinarith [mul_self_nonneg n.x, mul_self_nonneg n.y, mul_self_nonneg n.z]
  have hdot : dot n n = 1 := by
    have h1 := Real.mul_self_sqrt h0
    unfold length at hn
    rw [hn] at h1
    linarith
  simp only [dot] at hdot
  simp only [reflect, sub_def, Vector3.scale, dot]
  linear_combination (-2 * (i.x * n.x + i.y * n.y + i.z * n.z)) * hdot

/-- Witness for C9 at incident (1,2,3) and unit normal (1,0,0). -/
theorem reflect_dot_witness :
    dot (reflect ⟨1, 2, 3⟩ ⟨1, 0, 0⟩) ⟨1, 0, 0⟩ = -(dot ⟨1, 2, 3⟩ ⟨1, 0, 0⟩) :=
  reflect_dot ⟨1, 2, 3⟩ ⟨1, 0, 0⟩ (by
    unfold length
    rw [show dot ⟨1, 0, 0⟩ ⟨1, 0, 0⟩ = (1 : ℝ) by norm_num [dot]]
    exact Real.sqrt_one)

end RT

end
